import Mathlib

/-!
Shallow embedding of the xir IR validator (xir/src/validate.rs) and the typed
IR data model (xlang_struct) it operates over.

Modelling conventions:
- Rust panics, failed asserts, todo!() stubs and out-of-bounds accesses are all
  fatal aborts of validation; they are embedded as Except.error values of VErr.
- The functions check_unify, get_field_type, tycheck_expr, tycheck_items and
  tycheck_block can recurse through the global type table (Type::Named lookup)
  or through nested expressions/blocks, so they take an explicit fuel argument;
  running out of fuel is the distinguished error VErr.fuel (in Rust this is
  divergence, which is not a success either).
- Rust Vec-based stacks (push at the back, pop from the back) are Lean lists
  with index 0 as the bottom of the stack; split_off(pos) keeps take pos and
  returns drop pos, split_off_back(n) returns the last n elements in order.
- HashMap is an association list whose insert prepends (lookup finds the newest
  binding, matching HashMap replacement; these maps are never iterated).
- Payloads the validator only ever compares for equality or copies verbatim
  (ABI tags, aliasing rules, valid-range annotations, annotation lists, scalar
  validity flags) are modelled as Nat / List Nat.
- In-place mutation of the checked expression (GlobalAddress type back-fill,
  Derive pointer refinement) has no effect on the validation verdict or the
  simulated stack, and is not modelled; the value the mutation would produce is
  computed where it feeds the verdict.
- The field named alias in PointerType is called aliasing here because alias is
  a reserved word in Lean.
-/

namespace Xir

inductive StackValueKind where
  | LValue
  | RValue
deriving DecidableEq

inductive PathComponent where
  | Root
  | Text (s : String)
  | SpecialComponent (s : String)
deriving DecidableEq

structure Path where
  components : List PathComponent
deriving DecidableEq

inductive Abi where
  | C
  | Cdecl
  | Fastcall
  | Stdcall
  | Vectorcall
  | Thiscall
  | SysV
deriving DecidableEq

inductive OverflowBehaviour where
  | Wrap
  | Trap
  | Checked
  | Unchecked
  | Saturate
deriving DecidableEq

inductive BranchCondition where
  | Always
  | Never
  | Equal
  | NotEqual
  | Less
  | LessEqual
  | Greater
  | GreaterEqual
deriving DecidableEq

inductive BinaryOp where
  | Add
  | Sub
  | Mul
  | Div
  | Mod
  | BitAnd
  | BitOr
  | BitXor
  | Rsh
  | Lsh
  | Cmp
  | CmpInt
  | CmpLt
  | CmpLe
  | CmpGt
  | CmpGe
  | CmpNe
  | CmpEq
deriving DecidableEq

inductive UnaryOp where
  | Minus
  | BitNot
  | LogicNot
deriving DecidableEq

inductive LValueOp where
  | Xchg
  | Cmpxchg
  | Wcmpxchg
  | PreDec
  | PreInc
  | PostDec
  | PostInc
deriving DecidableEq

structure ScalarTypeHeader where
  bitsize : Nat
  vectorsize : Nat
  validity : Nat
deriving DecidableEq

inductive ScalarTypeKind where
  | Empty
  | Integer (signed : Bool) (min : Option Int) (max : Option Int)
  | Float (decimal : Bool)
  | Fixed (fractbits : Nat)
  | Char (flags : Nat)
  | LongFloat
deriving DecidableEq

structure ScalarType where
  header : ScalarTypeHeader
  kind : ScalarTypeKind
deriving DecidableEq

mutual
inductive Ty where
  | Scalar (sty : ScalarType)
  | Void
  | FnType (fnty : FnTy)
  | Pointer (pty : PointerTy)
  | Null
  | Product (tys : List Ty)
  | Aggregate (defn : AggregateDefn)
  | Array (arr : ArrayTy)
  | Named (p : Path)
  | TaggedType (tag : Nat) (inner : Ty)
  | Aligned (align : Nat) (inner : Ty)

inductive FnTy where
  | mk (ret : Ty) (params : List Ty) (tag : Abi) (variadic : Bool)

inductive PointerTy where
  | mk (aliasing : Nat) (valid_range : Nat × Nat) (decl : Nat) (inner : Ty)

inductive AggregateDefn where
  | mk (annotations : List Nat) (kind : Nat) (fields : List (String × Ty))

inductive ArrayTy where
  | mk (ty : Ty) (len : Value)

inductive Value where
  | Invalid (ty : Ty)
  | Uninitialized (ty : Ty)
  | StringVal (encoding : Nat) (content : String) (ty : Ty)
  | ByteString (content : List Nat)
  | Integer (ty : ScalarType) (val : Nat)
  | GlobalAddress (ty : Ty) (item : Path)
  | LabelAddress (n : Nat)
  | GenericParameter (n : Nat)
end

def FnTy.ret : FnTy → Ty
  | .mk r _ _ _ => r

def FnTy.params : FnTy → List Ty
  | .mk _ p _ _ => p

def FnTy.tag : FnTy → Abi
  | .mk _ _ t _ => t

def FnTy.variadic : FnTy → Bool
  | .mk _ _ _ v => v

def PointerTy.aliasing : PointerTy → Nat
  | .mk a _ _ _ => a

def PointerTy.valid_range : PointerTy → Nat × Nat
  | .mk _ v _ _ => v

def PointerTy.decl : PointerTy → Nat
  | .mk _ _ d _ => d

def PointerTy.inner : PointerTy → Ty
  | .mk _ _ _ i => i

def AggregateDefn.annotations : AggregateDefn → List Nat
  | .mk a _ _ => a

def AggregateDefn.kind : AggregateDefn → Nat
  | .mk _ k _ => k

def AggregateDefn.fields : AggregateDefn → List (String × Ty)
  | .mk _ _ f => f

def ArrayTy.ty : ArrayTy → Ty
  | .mk t _ => t

def ArrayTy.len : ArrayTy → Value
  | .mk _ l => l

/-- Pointer built through PointerType { inner, ..Default::default() }: all
annotation payloads take their default value. -/
def ptr_default (inner : Ty) : PointerTy := .mk 0 (0, 0) 0 inner

structure StackItem where
  ty : Ty
  kind : StackValueKind

structure TypeState where
  tys : List (Path × Ty)
  aggregate : List (Path × Option AggregateDefn)

/-- HashMap::get on the association-list model. -/
def hm_get {α : Type} (l : List (Path × α)) (p : Path) : Option α :=
  (l.find? (fun q => q.1 == p)).map (fun q => q.2)

/-- HashMap::insert on the association-list model: the new binding shadows any
older one. -/
def hm_insert {α : Type} (l : List (Path × α)) (p : Path) (v : α) : List (Path × α) :=
  (p, v) :: l

/-- Lookup in the per-block target map (HashMap<u32, Vec<StackItem>>). -/
def tgt_get (l : List (Nat × List StackItem)) (n : Nat) : Option (List StackItem) :=
  (l.find? (fun q => q.1 == n)).map (fun q => q.2)

/-- TypeState::refiy_type: resolve one Named layer through the global type
table, or strip one TaggedType/Aligned wrapper. -/
def refiy_type (ts : TypeState) (ty : Ty) : Ty :=
  match ty with
  | .Named p => (hm_get ts.tys p).getD ty
  | .TaggedType _ inner => inner
  | .Aligned _ inner => inner
  | t => t

/-- TypeState::get_field_type. Field lookup through Product (numeric field
names), inline Aggregate definitions and Named references; none models both
the None result and the panicking unwraps inside (the single caller unwraps
the result, so both are fatal there). -/
def get_field_type : Nat → TypeState → Ty → String → Option Ty
  | 0, _, _, _ => none
  | fuel+1, ts, ty, name =>
    match ty with
    | .TaggedType _ inner => get_field_type fuel ts inner name
    | .Aligned _ inner => get_field_type fuel ts inner name
    | .Product tys => (name.toNat?).bind fun v => tys.get? v
    | .Aggregate defn =>
      ((defn.fields.filter (fun q => q.1 == name)).head?).map (fun q => q.2)
    | .Named p =>
      match hm_get ts.aggregate p with
      | some ag =>
        match ag with
        | some defn =>
          ((defn.fields.filter (fun q => q.1 == name)).head?).map (fun q => q.2)
        | none => none
      | none =>
        match hm_get ts.tys p with
        | some t => get_field_type fuel ts t name
        | none => none
    | _ => none

/-- check_unify: structural type unification. true means success; every
failed assert or panic in the Rust source is false, and so is running out
of fuel (the Rust code can loop forever through a cyclic Named binding). -/
def check_unify : Nat → Ty → Ty → TypeState → Bool
  | 0, _, _, _ => false
  | fuel+1, ty1, ty2, type_state =>
    match refiy_type type_state ty1, refiy_type type_state ty2 with
    | .Null, _ => true
    | _, .Null => true
    | .Scalar sty1, .Scalar sty2 =>
      sty1.header.bitsize == sty2.header.bitsize &&
      sty1.header.vectorsize == sty2.header.vectorsize &&
      (match sty1.kind, sty2.kind with
       | .Integer signed1 _ _, .Integer signed2 _ _ => signed1 == signed2
       | .Fixed fractbits1, .Fixed fractbits2 => fractbits1 == fractbits2
       | .Char flags1, .Char flags2 => flags1 == flags2
       | .Float dec1, .Float dec2 => dec1 == dec2
       | .LongFloat, .LongFloat => true
       | _, _ => false)
    | .FnType fnty1, .FnType fnty2 =>
      fnty1.tag == fnty2.tag &&
      fnty1.variadic == fnty2.variadic &&
      fnty1.params.length == fnty2.params.length &&
      ((fnty1.params.zip fnty2.params).all fun q =>
        check_unify fuel q.1 q.2 type_state) &&
      check_unify fuel fnty1.ret fnty2.ret type_state
    | .Pointer pty1, .Pointer pty2 =>
      check_unify fuel pty1.inner pty2.inner type_state
    | .Product tys1, .Product tys2 =>
      (tys1.zip tys2).all fun q => check_unify fuel q.1 q.2 type_state
    | .Aggregate defn1, .Aggregate defn2 =>
      defn1.kind == defn2.kind &&
      defn1.annotations == defn2.annotations &&
      ((defn1.fields.zip defn2.fields).all fun q =>
        check_unify fuel q.1.2 q.2.2 type_state && q.1.1 == q.2.1)
    | .Array arr1, .Array arr2 =>
      (match arr1.len, arr2.len with
       | .Integer sty1 val1, .Integer sty2 val2 =>
         check_unify fuel (.Scalar sty1) (.Scalar sty2) type_state && val1 == val2
       | _, _ => false)
    | .Named n1, .Named n2 => n1 == n2
    | _, _ => false

/-- check_unify_stack: unify the top window of the live stack against a
target template (kinds equal, types unifiable); false also covers the
panic on a live stack shorter than the template. -/
def check_unify_stack (fuel : Nat) (stack target : List StackItem)
    (tys : TypeState) : Bool :=
  if stack.length < target.length then false
  else
    ((stack.drop (stack.length - target.length)).zip target).all fun q =>
      q.1.kind == q.2.kind && check_unify fuel q.1.ty q.2.ty tys

end Xir

namespace Xir

/-- Scalar integer type with the given bit size and signedness and all other
header fields defaulted, as built inline by the validator for comparison
results, overflow flags and byte-string elements. -/
def scalar_int (bits : Nat) (signed : Bool) : ScalarType :=
  { header := { bitsize := bits, vectorsize := 0, validity := 0 },
    kind := .Integer signed none none }

/-- Aggregate constructor payload of Expr::Aggregate. -/
structure CtorDef where
  ty : Ty
  fields : List String

inductive Switch where
  | Hash (cases : List (Value × Nat))
  | Linear (dummy : Nat)

mutual
inductive Expr where
  | Const (v : Value)
  | ExitBlock (blk : Nat) (values : Nat)
  | BinaryOp (op : BinaryOp) (v : OverflowBehaviour)
  | UnaryOp (op : UnaryOp) (v : OverflowBehaviour)
  | Tailcall (fnty : FnTy)
  | CallFunction (fnty : FnTy)
  | Branch (cond : BranchCondition) (target : Nat)
  | BranchIndirect
  | Convert (strength : Nat) (ty : Ty)
  | Derive (pty : PointerTy) (e : Expr)
  | Local (n : Nat)
  | Pop (n : Nat)
  | Dup (n : Nat)
  | Pivot (n : Nat) (m : Nat)
  | Aggregate (ctor : CtorDef)
  | Member (name : String)
  | MemberIndirect (name : String)
  | Block (n : Nat) (block : Block)
  | Assign (cls : Nat)
  | AsRValue (cls : Nat)
  | CompoundAssign (op : BinaryOp) (v : OverflowBehaviour) (cls : Nat)
  | LValueOp (op : LValueOp) (v : OverflowBehaviour) (cls : Nat)
  | Indirect
  | AddrOf
  | Null
  | Sequence (cls : Nat)
  | Fence (cls : Nat)
  | Switch (sw : Switch)

inductive Block where
  | mk (items : List BlockItem)

inductive BlockItem where
  | Expr (e : Expr)
  | Target (num : Nat) (stack : List StackItem)
end

def Block.items : Block → List BlockItem
  | .mk l => l

inductive VErr where
  | fuel
  | underflow
  | kind
  | ty
  | unresolved
  | duplicate
  | nesting
  | unsupported
  | other
deriving DecidableEq

/-- Mutable state threaded through tycheck_expr: the nested-block exit-shape
table and the simulated operand stack. -/
structure SimSt where
  block_exits : List (Option (List StackItem))
  vstack : List StackItem

/-- Loop state of tycheck_block: the exit table, the live stack, and the
diverged flag. -/
structure LoopSt where
  block_exits : List (Option (List StackItem))
  vstack : List StackItem
  diverged : Bool

/-- Vec::pop().unwrap(): take the top (last) stack item or abort. -/
def popE (s : List StackItem) : Except VErr (List StackItem × StackItem) :=
  match s.getLast? with
  | none => .error .underflow
  | some x => .ok (s.dropLast, x)

/-- Turn a failed assert into a validation abort. -/
def ensure (b : Bool) (e : VErr) : Except VErr Unit :=
  match b with
  | true => .ok ()
  | false => .error e

/-- Case loop of Expr::Switch for Switch::Hash: each case value must be an
integer unifying with the control type; the first case target sets the
reference stack shape (checked against the live stack), later case targets
must match it pairwise in count, kind and type. -/
def switch_cases (fuel : Nat) (ctrlTy : Ty) (targets : List (Nat × List StackItem))
    (tys : TypeState) (vstack : List StackItem) :
    List (Value × Nat) → Option (List StackItem) → Except VErr Unit
  | [], _ => .ok ()
  | (val, targ) :: rest, ustack => do
    match val with
    | .Integer sty _ => ensure (check_unify fuel ctrlTy (.Scalar sty) tys) .ty
    | _ => .error .other
    match tgt_get targets targ with
    | none => .error .unresolved
    | some tstack =>
      match ustack with
      | some stack => do
        ensure (stack.length == tstack.length) .ty
        ensure ((stack.zip tstack).all fun q =>
          q.1.kind == q.2.kind && check_unify fuel q.1.ty q.2.ty tys) .ty
        switch_cases fuel ctrlTy targets tys vstack rest ustack
      | none => do
        ensure (check_unify_stack fuel vstack tstack tys) .ty
        switch_cases fuel ctrlTy targets tys vstack rest (some tstack)

/-- Pre-scan of tycheck_block: collect every Target label declared in the
block, aborting on a redeclared label. -/
def prescan_targets : List BlockItem → List (Nat × List StackItem) →
    Except VErr (List (Nat × List StackItem))
  | [], acc => .ok acc
  | item :: rest, acc =>
    match item with
    | .Target num stack =>
      match tgt_get acc num with
      | some _ => .error .duplicate
      | none => prescan_targets rest ((num, stack) :: acc)
    | _ => prescan_targets rest acc

mutual
/-- tycheck_expr: replay one instruction's static effect on the simulated
stack. The returned Bool is the diverged flag the Rust function returns
(the source returns the literal false on every path). -/
def tycheck_expr : Nat → Expr → List Ty → List (Nat × List StackItem) →
    TypeState → SimSt → Except VErr (SimSt × Bool)
  | 0, _, _, _, _, _ => .error .fuel
  | fuel+1, e, locals, targets, tys, st =>
    match e with
    | .Const v =>
      match v with
      | .Invalid ty =>
        .ok ({ st with vstack := st.vstack ++ [⟨ty, .RValue⟩] }, false)
      | .StringVal _ _ ty =>
        .ok ({ st with vstack := st.vstack ++ [⟨ty, .RValue⟩] }, false)
      | .Uninitialized ty =>
        .ok ({ st with vstack := st.vstack ++ [⟨ty, .RValue⟩] }, false)
      | .GenericParameter _ => .error .unsupported
      | .Integer sty _ =>
        .ok ({ st with vstack := st.vstack ++ [⟨.Scalar sty, .RValue⟩] }, false)
      | .GlobalAddress ty item =>
        let ty1 :=
          match ty with
          | .Null => (hm_get tys.tys item).getD .Null
          | _ => ty
        .ok ({ st with vstack := st.vstack ++ [⟨.Pointer (ptr_default ty1), .RValue⟩] }, false)
      | .ByteString _ =>
        .ok ({ st with vstack :=
          st.vstack ++ [⟨.Pointer (ptr_default (.Scalar (scalar_int 8 false))), .RValue⟩] }, false)
      | .LabelAddress n =>
        match tgt_get targets n with
        | none => .error .unresolved
        | some tstack =>
          if tstack.length == 0 then
            .ok ({ st with vstack := st.vstack ++ [⟨.Pointer (ptr_default .Void), .RValue⟩] }, false)
          else .error .other
    | .ExitBlock blk values =>
      match st.block_exits.get? blk with
      | none => .error .other
      | some exitSlot =>
        if st.vstack.length < values then .error .underflow
        else
          let pos := st.vstack.length - values
          let stack := st.vstack.drop pos
          let vstack1 := st.vstack.take pos
          match exitSlot with
          | none =>
            .ok ({ block_exits := st.block_exits.set blk (some stack),
                   vstack := vstack1 }, false)
          | some items => do
            ensure (items.length == values) .other
            ensure (check_unify_stack fuel stack items tys) .ty
            .ok ({ st with vstack := vstack1 }, false)
    | .BinaryOp op v => do
      let (s1, val1) ← popE st.vstack
      let (s2, val2) ← popE s1
      ensure (val1.kind == .RValue) .kind
      ensure (val2.kind == .RValue) .kind
      match refiy_type tys val1.ty with
      | .Scalar _ =>
        match op with
        | .CmpInt | .Cmp =>
          .ok ({ st with vstack := s2 ++ [⟨.Scalar (scalar_int 32 true), .RValue⟩] }, false)
        | .CmpLt | .CmpLe | .CmpGt | .CmpGe | .CmpNe | .CmpEq =>
          .ok ({ st with vstack := s2 ++ [⟨.Scalar (scalar_int 1 false), .RValue⟩] }, false)
        | _ =>
          match v with
          | .Checked =>
            .ok ({ st with vstack :=
              s2 ++ [val1, ⟨.Scalar (scalar_int 1 false), .RValue⟩] }, false)
          | _ => .ok ({ st with vstack := s2 ++ [val1] }, false)
      | _ => .error .unsupported
    | .UnaryOp op v => do
      let (s1, val) ← popE st.vstack
      ensure (val.kind == .RValue) .kind
      match val.ty with
      | .Scalar _ =>
        match op with
        | .Minus =>
          match v with
          | .Checked =>
            .ok ({ st with vstack :=
              s1 ++ [val, ⟨.Scalar (scalar_int 1 false), .RValue⟩] }, false)
          | _ => .ok ({ st with vstack := s1 ++ [val] }, false)
        | .LogicNot =>
          .ok ({ st with vstack := s1 ++ [⟨.Scalar (scalar_int 1 false), .RValue⟩] }, false)
        | .BitNot => .ok ({ st with vstack := s1 ++ [val] }, false)
      | _ => .error .ty
    | .Tailcall _ => .error .unsupported
    | .CallFunction fnty =>
      if st.vstack.length < fnty.params.length then .error .underflow
      else do
        let params := st.vstack.drop (st.vstack.length - fnty.params.length)
        let (vstack2, dest) ← popE (st.vstack.take (st.vstack.length - fnty.params.length))
        ensure (!fnty.variadic) .unsupported
        ensure (dest.kind == .RValue) .kind
        match refiy_type tys dest.ty with
        | .Pointer pty =>
          match refiy_type tys pty.inner with
          | .FnType cty => do
            if cty.variadic then
              ensure (decide (cty.params.length ≤ fnty.params.length)) .ty
            else
              -- Faithful to validate.rs line 447: the assert there compares
              -- fnty.params.len() with itself, so it never fails.
              ensure (fnty.params.length == fnty.params.length) .ty
            ensure ((cty.params.zip fnty.params).all fun q =>
              check_unify fuel q.1 q.2 tys) .ty
            ensure (check_unify fuel cty.ret fnty.ret tys) .ty
            ensure ((params.zip fnty.params).all fun q =>
              q.1.kind == .RValue && check_unify fuel q.1.ty q.2 tys) .ty
            .ok ({ st with vstack := vstack2 ++ [⟨fnty.ret, .RValue⟩] }, false)
          | _ => .error .ty
        | _ => .error .ty
    | .Branch cond target => do
      let vstack1 ←
        match cond with
        | .Always => .ok st.vstack
        | .Never => .ok st.vstack
        | _ => do
          let (rest, ctrl) ← popE st.vstack
          ensure (ctrl.kind == .RValue) .kind
          match refiy_type tys ctrl.ty with
          | .Scalar sty =>
            match sty.kind with
            | .Integer _ _ _ => .ok rest
            | _ => .error .ty
          | _ => .error .ty
      match tgt_get targets target with
      | none => .error .unresolved
      | some tstack => do
        ensure (check_unify_stack fuel vstack1 tstack tys) .ty
        .ok ({ st with vstack := vstack1 }, false)
    | .BranchIndirect => do
      let (s1, target) ← popE st.vstack
      ensure (target.kind == .RValue) .kind
      ensure (check_unify fuel target.ty (.Pointer (ptr_default .Void)) tys) .ty
      .ok ({ st with vstack := s1 }, false)
    | .Convert _ _ => .error .unsupported
    | .Derive pty e' => do
      let (st1, _) ← tycheck_expr fuel e' locals targets tys st
      let (s1, ptr) ← popE st1.vstack
      ensure (ptr.kind == .RValue) .kind
      match ptr.ty with
      | .Pointer ptrty => do
        ensure (check_unify fuel pty.inner ptrty.inner tys) .ty
        .ok ({ st1 with vstack := s1 }, false)
      | _ => .error .ty
    | .Local n =>
      match locals.get? n with
      | some t => .ok ({ st with vstack := st.vstack ++ [⟨t, .LValue⟩] }, false)
      | none => .error .other
    | .Pop n =>
      if st.vstack.length < n then .error .underflow
      else .ok ({ st with vstack := st.vstack.take (st.vstack.length - n) }, false)
    | .Dup n =>
      if st.vstack.length < n then .error .underflow
      else
        let back := st.vstack.length - n
        let stack := st.vstack.drop back
        .ok ({ st with vstack := st.vstack.take back ++ stack ++ stack }, false)
    | .Pivot n m =>
      if st.vstack.length < m then .error .underflow
      else
        let back1 := st.vstack.length - m
        if back1 < n then .error .underflow
        else
          let back2 := back1 - n
          let stack1 := st.vstack.drop back1
          let stack2 := (st.vstack.take back1).drop back2
          .ok ({ st with vstack := st.vstack.take back2 ++ stack1 ++ stack2 }, false)
    | .Aggregate ctor =>
      if st.vstack.length < ctor.fields.length then .error .underflow
      else do
        let back := st.vstack.length - ctor.fields.length
        let values := st.vstack.drop back
        ensure ((ctor.fields.zip values).all fun q =>
          q.2.kind == .RValue &&
          (match get_field_type fuel tys ctor.ty q.1 with
           | some fty => check_unify fuel fty q.2.ty tys
           | none => false)) .ty
        .ok ({ st with vstack := st.vstack.take back ++ [⟨ctor.ty, .RValue⟩] }, false)
    | .Member name => do
      let (s1, val) ← popE st.vstack
      ensure (val.kind == .LValue) .kind
      match get_field_type fuel tys val.ty name with
      | some fty => .ok ({ st with vstack := s1 ++ [⟨fty, .LValue⟩] }, false)
      | none => .error .unresolved
    | .MemberIndirect name => do
      let (s1, val) ← popE st.vstack
      ensure (val.kind == .RValue) .kind
      match val.ty with
      | .Pointer ptr =>
        match get_field_type fuel tys ptr.inner name with
        | some fty =>
          .ok ({ st with vstack := s1 ++ [⟨.Pointer (ptr_default fty), val.kind⟩] }, false)
        | none => .error .unresolved
      | _ => .error .ty
    | .Block n block =>
      if n == st.block_exits.length then do
        let (exits1, res) ← tycheck_block fuel block tys locals st.block_exits
        .ok ({ block_exits := exits1, vstack := st.vstack ++ res }, false)
      else .error .nesting
    | .Assign _ => do
      let (s1, rvalue) ← popE st.vstack
      let (s2, lvalue) ← popE s1
      ensure (rvalue.kind == .RValue) .kind
      ensure (lvalue.kind == .LValue) .kind
      ensure (check_unify fuel rvalue.ty lvalue.ty tys) .ty
      .ok ({ st with vstack := s2 }, false)
    | .AsRValue _ => do
      let (s1, val) ← popE st.vstack
      ensure (val.kind == .LValue) .kind
      .ok ({ st with vstack := s1 ++ [⟨val.ty, .RValue⟩] }, false)
    | .CompoundAssign _ v _ => do
      let (s1, rvalue) ← popE st.vstack
      let (s2, lvalue) ← popE s1
      ensure (rvalue.kind == .RValue) .kind
      ensure (lvalue.kind == .LValue) .kind
      ensure (check_unify fuel lvalue.ty rvalue.ty tys) .ty
      match refiy_type tys lvalue.ty with
      | .Scalar _ =>
        if v == .Checked then
          .ok ({ st with vstack := s2 ++ [⟨.Scalar (scalar_int 1 false), .RValue⟩] }, false)
        else .ok ({ st with vstack := s2 }, false)
      | _ => .error .unsupported
    | .LValueOp op v _ =>
      match op with
      | .Xchg => do
        let (s1, val1) ← popE st.vstack
        let (s2, val2) ← popE s1
        ensure (val1.kind == .LValue) .kind
        ensure (val2.kind == .LValue) .kind
        ensure (check_unify fuel val1.ty val2.ty tys) .ty
        .ok ({ st with vstack := s2 }, false)
      | .Cmpxchg | .Wcmpxchg => do
        let (s1, control) ← popE st.vstack
        let (s2, swap) ← popE s1
        let (s3, dest) ← popE s2
        ensure (dest.kind == .LValue) .kind
        ensure (swap.kind == .LValue) .kind
        ensure (control.kind == .RValue) .kind
        ensure (check_unify fuel dest.ty control.ty tys) .ty
        ensure (check_unify fuel dest.ty swap.ty tys) .ty
        .ok ({ st with vstack := s3 ++ [⟨.Scalar (scalar_int 1 false), .RValue⟩] }, false)
      | .PreDec | .PreInc => do
        let (s1, lvalue) ← popE st.vstack
        ensure (lvalue.kind == .LValue) .kind
        match refiy_type tys lvalue.ty with
        | .Scalar _ =>
          if v == .Checked then
            .ok ({ st with vstack :=
              s1 ++ [lvalue, ⟨.Scalar (scalar_int 1 false), .RValue⟩] }, false)
          else .ok ({ st with vstack := s1 ++ [lvalue] }, false)
        | _ => .error .ty
      | .PostDec | .PostInc => do
        let (s1, lvalue) ← popE st.vstack
        ensure (lvalue.kind == .LValue) .kind
        match refiy_type tys lvalue.ty with
        | .Scalar _ =>
          if v == .Checked then
            .ok ({ st with vstack :=
              s1 ++ [⟨lvalue.ty, .RValue⟩, ⟨.Scalar (scalar_int 1 false), .RValue⟩] }, false)
          else .ok ({ st with vstack := s1 ++ [lvalue] }, false)
        | _ => .error .ty
    | .Indirect => do
      let (s1, val) ← popE st.vstack
      ensure (val.kind == .RValue) .kind
      match val.ty with
      | .Pointer ptr => .ok ({ st with vstack := s1 ++ [⟨ptr.inner, .LValue⟩] }, false)
      | _ => .error .ty
    | .AddrOf => do
      let (s1, val) ← popE st.vstack
      ensure (val.kind == .LValue) .kind
      -- Faithful to validate.rs lines 771-782: only the type is rewritten to
      -- a pointer; the kind field of the popped item is pushed back unchanged.
      .ok ({ st with vstack := s1 ++ [⟨.Pointer (ptr_default val.ty), val.kind⟩] }, false)
    | .Null => .ok (st, false)
    | .Sequence _ => .ok (st, false)
    | .Fence _ => .ok (st, false)
    | .Switch sw => do
      let (s1, ctrl) ← popE st.vstack
      ensure (ctrl.kind == .RValue) .kind
      match refiy_type tys ctrl.ty with
      | .Scalar sty =>
        match sty.kind with
        | .Integer _ _ _ =>
          match sw with
          | .Hash cases => do
            switch_cases fuel ctrl.ty targets tys s1 cases none
            .ok ({ st with vstack := s1 }, false)
          | .Linear _ => .error .unsupported
        | _ => .error .ty
      | _ => .error .ty
termination_by structural fuel => fuel

/-- Item loop of tycheck_block: an Expr item feeds the simulator and stores
its diverged result; a Target item is a join point whose declared shape is
checked against the live stack (unless diverged) and then replaces it. -/
def tycheck_items : Nat → List BlockItem → List Ty → List (Nat × List StackItem) →
    TypeState → LoopSt → Except VErr LoopSt
  | _, [], _, _, _, lst => .ok lst
  | 0, _ :: _, _, _, _, _ => .error .fuel
  | fuel+1, item :: rest, locals, targets, tys, lst =>
    match item with
    | .Expr e => do
      let (st1, d) ← tycheck_expr fuel e locals targets tys
        { block_exits := lst.block_exits, vstack := lst.vstack }
      tycheck_items fuel rest locals targets tys
        { block_exits := st1.block_exits, vstack := st1.vstack, diverged := d }
    | .Target _ stack =>
      if lst.diverged then
        tycheck_items fuel rest locals targets tys
          { lst with vstack := stack, diverged := false }
      else
        if check_unify_stack fuel lst.vstack stack tys then
          tycheck_items fuel rest locals targets tys
            { lst with vstack := stack, diverged := false }
        else .error .ty
termination_by structural fuel => fuel

/-- tycheck_block: push a fresh exit slot, pre-scan the Target labels, replay
every item, then pop this block's recorded exit stack (empty if no ExitBlock
targeting it ever fired). -/
def tycheck_block : Nat → Block → TypeState → List Ty →
    List (Option (List StackItem)) →
    Except VErr (List (Option (List StackItem)) × List StackItem)
  | 0, _, _, _, _ => .error .fuel
  | fuel+1, block, tys, locals, block_exits => do
    let targets ← prescan_targets block.items []
    let fin ← tycheck_items fuel block.items locals targets tys
      { block_exits := block_exits ++ [none], vstack := [], diverged := false }
    match fin.block_exits.getLast? with
    | none => .error .other
    | some last => .ok (fin.block_exits.dropLast, last.getD [])
termination_by structural fuel => fuel
end

structure FnBody where
  locals : List Ty
  block : Block

structure FunctionDeclaration where
  ty : FnTy
  body : Option FnBody

/-- tycheck_function: validate the body's root block with params ++ locals as
the local type list, then check the block's exit stack against the declared
return type (0 items for Void, exactly 1 unifiable item otherwise). -/
def tycheck_function (fuel : Nat) (x : FunctionDeclaration) (tys : TypeState) :
    Except VErr Unit :=
  match x.body with
  | none => .ok ()
  | some body => do
    let local_tys := x.ty.params ++ body.locals
    let (_, ret) ← tycheck_block fuel body.block tys local_tys []
    match x.ty.ret with
    | .Void => ensure (ret.length == 0) .ty
    | _ =>
      match ret with
      | [r0] => ensure (check_unify fuel r0.ty x.ty.ret tys) .ty
      | _ => .error .ty

structure StaticDefinition where
  ty : Ty
  init : Value

inductive MemberDeclaration where
  | Function (decl : FunctionDeclaration)
  | Static (defn : StaticDefinition)
  | AggregateDefinition (defn : AggregateDefn)
  | OpaqueAggregate (kind : Nat)
  | Empty

structure ScopeMember where
  vis : Nat
  member_decl : MemberDeclaration

structure Scope where
  members : List (Path × ScopeMember)

structure File where
  target : Nat
  root : Scope

/-- Pass one of tycheck: gather global address types and aggregate
definitions. -/
def pass1 : List (Path × ScopeMember) → TypeState → TypeState
  | [], ts => ts
  | (path, member) :: rest, ts =>
    match member.member_decl with
    | .Function decl =>
      pass1 rest { ts with tys := hm_insert ts.tys path (.FnType decl.ty) }
    | .Static defn =>
      pass1 rest { ts with tys := hm_insert ts.tys path defn.ty }
    | .AggregateDefinition defn =>
      pass1 rest { ts with aggregate := hm_insert ts.aggregate path (some defn) }
    | .OpaqueAggregate _ =>
      pass1 rest { ts with aggregate := hm_insert ts.aggregate path none }
    | _ => pass1 rest ts

/-- Pass two of tycheck: run tycheck_function on every function member with a
body; a Static member hits the todo!() stub, which aborts. -/
def pass2 (fuel : Nat) (ts : TypeState) : List (Path × ScopeMember) → Except VErr Unit
  | [] => .ok ()
  | (_, member) :: rest =>
    match member.member_decl with
    | .Function decl =>
      match decl.body with
      | some _ => do
        tycheck_function fuel decl ts
        pass2 fuel ts rest
      | none => pass2 fuel ts rest
    | .Static _ => .error .unsupported
    | _ => pass2 fuel ts rest

/-- tycheck: the file-level two-pass driver. -/
def tycheck (fuel : Nat) (x : File) : Except VErr Unit :=
  pass2 fuel (pass1 x.root.members { tys := [], aggregate := [] }) x.root.members

end Xir

namespace Xir

/-- Empty global type state: no named types, no aggregate definitions. -/
def ts_empty : TypeState := { tys := [], aggregate := [] }

/-- Signed 32-bit integer type. -/
def ty_i32 : Ty := .Scalar (scalar_int 32 true)

/-- Signed 64-bit integer type. -/
def ty_i64 : Ty := .Scalar (scalar_int 64 true)

/-- Non-variadic two-parameter function type fn(i32, i32) -> i32. -/
def callee2 : FnTy := .mk ty_i32 [ty_i32, ty_i32] .C false

/-- Call-site signature fn(i32) -> i32 with one parameter. -/
def sig1 : FnTy := .mk ty_i32 [ty_i32] .C false

/-- Call-site signature fn(i32, i32, i32) -> i32 with three parameters. -/
def sig3 : FnTy := .mk ty_i32 [ty_i32, ty_i32, ty_i32] .C false

/-- R-value stack item holding a pointer to the two-parameter callee. -/
def dest2 : StackItem := ⟨.Pointer (ptr_default (.FnType callee2)), .RValue⟩

/-- R-value i32 argument item. -/
def arg_i32 : StackItem := ⟨ty_i32, .RValue⟩

/-- C1: validate.rs accepts a CallFunction whose call-site signature has one
parameter while the non-variadic callee declares two (the arity assert at
validate.rs line 447 compares the call-site count with itself), and likewise
accepts three arguments against the same two-parameter callee. -/
theorem call_arity_not_enforced :
    tycheck_expr 2 (.CallFunction sig1) [] [] ts_empty
      ⟨[], [dest2, arg_i32]⟩ = .ok (⟨[], [⟨ty_i32, .RValue⟩]⟩, false) ∧
    tycheck_expr 2 (.CallFunction sig3) [] [] ts_empty
      ⟨[], [dest2, arg_i32, arg_i32, arg_i32]⟩ =
      .ok (⟨[], [⟨ty_i32, .RValue⟩]⟩, false) := by
  constructor <;> rfl

/-- C8: AddrOf on an l-value of type i32 pushes a pointer item whose kind is
still LValue (validate.rs never rewrites the kind), so the following Indirect
rejects it with a kind violation instead of restoring the original l-value;
in the other direction, Indirect then AddrOf on an r-value pointer to i32
ends with an l-value pointer item, not the original r-value item. -/
theorem addrof_indirect_not_inverse :
    tycheck_expr 1 .AddrOf [] [] ts_empty ⟨[], [⟨ty_i32, .LValue⟩]⟩ =
      .ok (⟨[], [⟨.Pointer (ptr_default ty_i32), .LValue⟩]⟩, false) ∧
    tycheck_expr 1 .Indirect [] [] ts_empty
      ⟨[], [⟨.Pointer (ptr_default ty_i32), .LValue⟩]⟩ = .error .kind ∧
    tycheck_expr 1 .Indirect [] [] ts_empty
      ⟨[], [⟨.Pointer (ptr_default ty_i32), .RValue⟩]⟩ =
      .ok (⟨[], [⟨ty_i32, .LValue⟩]⟩, false) ∧
    tycheck_expr 1 .AddrOf [] [] ts_empty ⟨[], [⟨ty_i32, .LValue⟩]⟩ ≠
      .ok (⟨[], [⟨.Pointer (ptr_default ty_i32), .RValue⟩]⟩, false) := by
  refine ⟨rfl, rfl, rfl, ?_⟩
  intro h
  have h1 : (⟨[], [⟨.Pointer (ptr_default ty_i32), .LValue⟩]⟩ : SimSt) =
      ⟨[], [⟨.Pointer (ptr_default ty_i32), .RValue⟩]⟩ := by
    have h0 := h
    rw [show tycheck_expr 1 .AddrOf [] [] ts_empty ⟨[], [⟨ty_i32, .LValue⟩]⟩ =
      .ok (⟨[], [⟨.Pointer (ptr_default ty_i32), .LValue⟩]⟩, false) from rfl] at h0
    exact (Prod.mk.injEq _ _ _ _ ▸ (Except.ok.injEq _ _ ▸ h0)).1
  simp only [SimSt.mk.injEq, List.cons.injEq, StackItem.mk.injEq, and_true, true_and] at h1
  exact absurd h1 (by decide)

end Xir

namespace Xir

/-- C6: Product unification zips the two element lists (truncating to the
shorter one) and checks nothing about their lengths, so products of different
arity unify whenever the common prefix does; witnessed on (i32) against
(i32, i64) in both orders. -/
theorem product_unify_ignores_arity :
    (∀ (fuel : Nat) (tys1 tys2 : List Ty) (ts : TypeState),
      check_unify (fuel+1) (.Product tys1) (.Product tys2) ts =
        ((tys1.zip tys2).all fun q => check_unify fuel q.1 q.2 ts)) ∧
    check_unify 2 (.Product [ty_i32]) (.Product [ty_i32, ty_i64]) ts_empty = true ∧
    check_unify 2 (.Product [ty_i32, ty_i64]) (.Product [ty_i32]) ts_empty = true :=
  ⟨fun _ _ _ _ => rfl, rfl, rfl⟩

/-- Stack-window unification of two equal-length lists is exactly the pairwise
conjunction of kind equality and type unification. -/
theorem check_unify_stack_forall₂ {fuel : Nat} {stack target : List StackItem}
    {ts : TypeState} (hlen : stack.length = target.length)
    (h : check_unify_stack fuel stack target ts = true) :
    List.Forall₂ (fun a b => a.kind = b.kind ∧ check_unify fuel a.ty b.ty ts = true)
      stack target := by
  rw [check_unify_stack] at h
  rw [if_neg (by omega)] at h
  rw [hlen, Nat.sub_self, List.drop_zero] at h
  rw [List.forall₂_iff_zip]
  refine ⟨hlen, fun {a b} hab => ?_⟩
  have := List.all_eq_true.mp h (a, b) hab
  simp only [Bool.and_eq_true, beq_iff_eq] at this
  exact this

end Xir

namespace Xir

/-- C3: a successful ExitBlock{blk, values} pops exactly values items from the
simulated stack; the first exit targeting blk records the popped window as the
block's exit shape, a subsequent exit must supply the same item count and a
pairwise kind-equal, type-unifiable window; either way the recorded exit
stack for blk afterwards has exactly values items. -/
theorem exitblock_pops_declared_count
    (fuel blk values : Nat) (locals : List Ty) (targets : List (Nat × List StackItem))
    (ts : TypeState) (st st' : SimSt) (d : Bool)
    (h : tycheck_expr (fuel+1) (.ExitBlock blk values) locals targets ts st = .ok (st', d)) :
    values ≤ st.vstack.length ∧
    st'.vstack = st.vstack.take (st.vstack.length - values) ∧
    ∃ rcd, st'.block_exits.get? blk = some (some rcd) ∧ rcd.length = values ∧
      ((st.block_exits.get? blk = some none ∧
        rcd = st.vstack.drop (st.vstack.length - values) ∧
        st'.block_exits = st.block_exits.set blk (some rcd)) ∨
       (st.block_exits.get? blk = some (some rcd) ∧
        st'.block_exits = st.block_exits ∧
        List.Forall₂ (fun a b => a.kind = b.kind ∧ check_unify fuel a.ty b.ty ts = true)
          (st.vstack.drop (st.vstack.length - values)) rcd)) := by
  simp only [tycheck_expr] at h
  split at h
  · exact absurd h (by simp)
  · rename_i exitSlot hget
    split at h
    · exact absurd h (by simp)
    · rename_i hlen
      have hblk : blk < st.block_exits.length := by
        rcases List.get?_eq_some.mp hget with ⟨hb, _⟩
        exact hb
      split at h
      · simp only [Except.ok.injEq, Prod.mk.injEq] at h
        obtain ⟨h1, _⟩ := h
        subst h1
        refine ⟨by omega, rfl, st.vstack.drop (st.vstack.length - values), ?_, ?_, ?_⟩
        · exact List.get?_set_eq_of_lt _ hblk
        · rw [List.length_drop]; omega
        · exact Or.inl ⟨hget, rfl, rfl⟩
      · rename_i items
        by_cases hcnt : (items.length == values) = true
        · by_cases huni : check_unify_stack fuel
              (st.vstack.drop (st.vstack.length - values)) items ts = true
          · simp only [ensure, hcnt, huni, Bind.bind, Except.bind,
              Except.ok.injEq, Prod.mk.injEq] at h
            obtain ⟨h1, _⟩ := h
            subst h1
            have hcnt' : items.length = values := by simpa using hcnt
            refine ⟨by omega, rfl, items, hget, hcnt', Or.inr ⟨hget, rfl, ?_⟩⟩
            exact check_unify_stack_forall₂ (by rw [List.length_drop]; omega) huni
          · rw [Bool.not_eq_true] at huni
            simp only [ensure, hcnt, huni, Bind.bind, Except.bind] at h
            exact absurd h (by simp)
        · rw [Bool.not_eq_true] at hcnt
          simp only [ensure, hcnt, Bind.bind, Except.bind] at h
          exact absurd h (by simp)

/-- Witness for the ExitBlock theorem: ExitBlock{0, 1} from a one-item stack
with an unestablished exit slot succeeds, and the theorem applies to it. -/
theorem exitblock_pops_declared_count_witness :
    1 ≤ ([arg_i32] : List StackItem).length ∧
    (⟨[some [arg_i32]], []⟩ : SimSt).vstack = [arg_i32].take ([arg_i32].length - 1) ∧
    ∃ rcd, (⟨[some [arg_i32]], []⟩ : SimSt).block_exits.get? 0 = some (some rcd) ∧
      rcd.length = 1 ∧
      (((⟨[none], [arg_i32]⟩ : SimSt).block_exits.get? 0 = some none ∧
        rcd = [arg_i32].drop ([arg_i32].length - 1) ∧
        (⟨[some [arg_i32]], []⟩ : SimSt).block_exits =
          (⟨[none], [arg_i32]⟩ : SimSt).block_exits.set 0 (some rcd)) ∨
       ((⟨[none], [arg_i32]⟩ : SimSt).block_exits.get? 0 = some (some rcd) ∧
        (⟨[some [arg_i32]], []⟩ : SimSt).block_exits = (⟨[none], [arg_i32]⟩ : SimSt).block_exits ∧
        List.Forall₂ (fun a b => a.kind = b.kind ∧ check_unify 1 a.ty b.ty ts_empty = true)
          ([arg_i32].drop ([arg_i32].length - 1)) rcd)) :=
  exitblock_pops_declared_count 1 0 1 [] [] ts_empty ⟨[none], [arg_i32]⟩
    ⟨[some [arg_i32]], []⟩ false rfl

end Xir

namespace Xir

/-- C9: a successful Derive(pty, inner) first validates the inner expression,
then pops its result, which must be an r-value whose type is a pointer whose
pointee unifies with the annotation's inner type, and pushes nothing back: the
final state is the inner expression's state minus its top item. -/
theorem derive_discards_result
    (fuel : Nat) (pty : PointerTy) (e : Expr) (locals : List Ty)
    (targets : List (Nat × List StackItem)) (ts : TypeState) (st out : SimSt) (d : Bool)
    (h : tycheck_expr (fuel+1) (.Derive pty e) locals targets ts st = .ok (out, d)) :
    ∃ st1 d1 ptrty, tycheck_expr fuel e locals targets ts st = .ok (st1, d1) ∧
      st1.vstack.getLast? = some ⟨.Pointer ptrty, .RValue⟩ ∧
      check_unify fuel pty.inner ptrty.inner ts = true ∧
      out = { st1 with vstack := st1.vstack.dropLast } ∧ d = false := by
  simp only [tycheck_expr, Bind.bind] at h
  cases hrec : tycheck_expr fuel e locals targets ts st with
  | error err => rw [hrec] at h; exact absurd h (by simp [Except.bind])
  | ok p =>
    obtain ⟨st1, d1⟩ := p
    rw [hrec] at h
    simp only [Except.bind] at h
    cases hlast : st1.vstack.getLast? with
    | none => simp only [popE, hlast] at h; exact absurd h (by simp)
    | some ptr =>
      simp only [popE, hlast] at h
      by_cases hk : (ptr.kind == StackValueKind.RValue) = true
      · simp only [ensure, hk] at h
        cases hty : ptr.ty with
        | Pointer ptrty =>
          rw [hty] at h
          by_cases huni : check_unify fuel pty.inner ptrty.inner ts = true
          · simp only [ensure, huni, Except.ok.injEq, Prod.mk.injEq] at h
            obtain ⟨h1, h2⟩ := h
            refine ⟨st1, d1, ptrty, rfl, ?_, huni, h1.symm, h2.symm⟩
            rw [hlast]
            congr 1
            have : ptr = ⟨ptr.ty, ptr.kind⟩ := rfl
            rw [this, hty]
            simp only [beq_iff_eq] at hk
            rw [hk]
          · rw [Bool.not_eq_true] at huni
            simp only [ensure, huni] at h
            exact absurd h (by simp)
        | Scalar sty => rw [hty] at h; exact absurd h (by simp)
        | Void => rw [hty] at h; exact absurd h (by simp)
        | FnType fnty => rw [hty] at h; exact absurd h (by simp)
        | Null => rw [hty] at h; exact absurd h (by simp)
        | Product tys2 => rw [hty] at h; exact absurd h (by simp)
        | Aggregate defn => rw [hty] at h; exact absurd h (by simp)
        | Array arr => rw [hty] at h; exact absurd h (by simp)
        | Named p2 => rw [hty] at h; exact absurd h (by simp)
        | TaggedType tag inner2 => rw [hty] at h; exact absurd h (by simp)
        | Aligned align inner2 => rw [hty] at h; exact absurd h (by simp)
      · rw [Bool.not_eq_true] at hk
        simp only [ensure, hk] at h
        exact absurd h (by simp)

/-- Witness for the Derive theorem: derive over a constant pushing an r-value
pointer to i32 validates and leaves the stack empty again. -/
theorem derive_discards_result_witness :
    ∃ st1 d1 ptrty,
      tycheck_expr 1 (.Const (.Invalid (.Pointer (ptr_default ty_i32)))) [] [] ts_empty
        ⟨[], []⟩ = .ok (st1, d1) ∧
      st1.vstack.getLast? = some ⟨.Pointer ptrty, .RValue⟩ ∧
      check_unify 1 (ptr_default ty_i32).inner ptrty.inner ts_empty = true ∧
      (⟨[], []⟩ : SimSt) = { st1 with vstack := st1.vstack.dropLast } ∧ false = false :=
  derive_discards_result 1 (ptr_default ty_i32)
    (.Const (.Invalid (.Pointer (ptr_default ty_i32)))) [] [] ts_empty
    ⟨[], []⟩ ⟨[], []⟩ false rfl

end Xir

namespace Xir

/-- Sequential decomposition of the item loop: running a concatenation is
running the prefix and then the suffix from the prefix's final state (the
loop consumes one unit of fuel per item). -/
theorem tycheck_items_append (fuel : Nat) (a b : List BlockItem) (locals : List Ty)
    (targets : List (Nat × List StackItem)) (tys : TypeState) (lst : LoopSt) :
    tycheck_items fuel (a ++ b) locals targets tys lst =
      (match tycheck_items fuel a locals targets tys lst with
       | .error err => .error err
       | .ok mid => tycheck_items (fuel - a.length) b locals targets tys mid) := by
  induction a generalizing fuel lst with
  | nil => cases fuel <;> simp [tycheck_items]
  | cons item rest ih =>
    cases fuel with
    | zero => simp [tycheck_items]
    | succ n =>
      cases item with
      | Expr e =>
        simp only [List.cons_append, tycheck_items]
        cases h : tycheck_expr n e locals targets tys ⟨lst.block_exits, lst.vstack⟩ with
        | error err => simp [h, Bind.bind, Except.bind]
        | ok p => simp [h, Bind.bind, Except.bind, ih, List.length_cons]
      | Target num tstack =>
        simp only [List.cons_append, tycheck_items]
        by_cases hd : lst.diverged = true
        · simp [hd, ih, List.length_cons]
        · rw [Bool.not_eq_true] at hd
          simp only [hd, Bool.false_eq_true, if_false]
          by_cases hu : check_unify_stack n lst.vstack tstack tys = true
          · simp [hu, ih, List.length_cons]
          · rw [Bool.not_eq_true] at hu
            simp [hu, List.length_cons]

/-- C2: in any successful run of a block's item list, reaching a Target item
at any position means the prefix before it succeeded; if the state reaching
the Target had not diverged, the live stack's top window was required to
unify against the label's declared shape; and in either case the run
continues with the live stack replaced by exactly the declared shape and the
diverged flag cleared. -/
theorem target_join_point
    (fuel : Nat) (pre rest : List BlockItem) (num : Nat) (tstack : List StackItem)
    (locals : List Ty) (targets : List (Nat × List StackItem)) (tys : TypeState)
    (lst out : LoopSt)
    (h : tycheck_items fuel (pre ++ .Target num tstack :: rest) locals targets tys lst
      = .ok out) :
    ∃ mid, tycheck_items fuel pre locals targets tys lst = .ok mid ∧
      (mid.diverged = false →
        check_unify_stack (fuel - pre.length - 1) mid.vstack tstack tys = true) ∧
      tycheck_items (fuel - pre.length - 1) rest locals targets tys
        { mid with vstack := tstack, diverged := false } = .ok out := by
  rw [tycheck_items_append] at h
  cases hpre : tycheck_items fuel pre locals targets tys lst with
  | error err => rw [hpre] at h; exact absurd h (by simp)
  | ok mid =>
    rw [hpre] at h
    refine ⟨mid, rfl, ?_⟩
    cases hf : fuel - pre.length with
    | zero => rw [hf] at h; exact absurd h (by simp [tycheck_items])
    | succ f =>
      rw [hf] at h
      simp only [Nat.add_sub_cancel]
      simp only [tycheck_items] at h
      by_cases hd : mid.diverged = true
      · rw [if_pos hd] at h
        exact ⟨fun hfalse => absurd hd (by rw [hfalse]; simp), h⟩
      · rw [Bool.not_eq_true] at hd
        rw [if_neg (by rw [hd]; simp)] at h
        by_cases hu : check_unify_stack f mid.vstack tstack tys = true
        · rw [if_pos hu] at h
          exact ⟨fun _ => hu, h⟩
        · rw [Bool.not_eq_true] at hu
          rw [hu] at h
          exact absurd h (by simp)

/-- Witness for the Target join-point theorem: a single Target item over an
empty live stack and empty declared shape. -/
theorem target_join_point_witness :
    ∃ mid, tycheck_items 1 [] [] [] ts_empty ⟨[], [], false⟩ = .ok mid ∧
      (mid.diverged = false →
        check_unify_stack (1 - List.length ([] : List BlockItem) - 1)
          mid.vstack [] ts_empty = true) ∧
      tycheck_items (1 - List.length ([] : List BlockItem) - 1) [] [] [] ts_empty
        { mid with vstack := [], diverged := false } = .ok ⟨[], [], false⟩ :=
  target_join_point 1 [] [] 0 [] [] [] ts_empty ⟨[], [], false⟩ ⟨[], [], false⟩ rfl

end Xir


namespace Xir

/-- Equality tests with a lawful boolean equality are symmetric. -/
theorem beq_symm {α : Type _} [BEq α] [LawfulBEq α] (a b : α) : (a == b) = (b == a) :=
  Bool.eq_iff_iff.mpr (by rw [beq_iff_eq, beq_iff_eq]; exact eq_comm)

/-- check_unify is symmetric: swapping the two types never changes the
verdict, at every fuel level. -/
theorem check_unify_comm (fuel : Nat) (ty1 ty2 : Ty) (ts : TypeState) :
    check_unify fuel ty1 ty2 ts = check_unify fuel ty2 ty1 ts := by
  induction fuel generalizing ty1 ty2 with
  | zero => rfl
  | succ fuel ih =>
    have hzip : ∀ (l1 l2 : List Ty),
        ((l1.zip l2).all fun q => check_unify fuel q.1 q.2 ts) =
        ((l2.zip l1).all fun q => check_unify fuel q.1 q.2 ts) := by
      intro l1
      induction l1 with
      | nil => intro l2; cases l2 <;> rfl
      | cons x xs ihx =>
        intro l2
        cases l2 with
        | nil => rfl
        | cons y ys =>
          simp only [List.zip_cons_cons, List.all_cons, ihx ys]
          rw [ih x y]
    have hzipf : ∀ (l1 l2 : List (String × Ty)),
        ((l1.zip l2).all fun q => check_unify fuel q.1.2 q.2.2 ts && (q.1.1 == q.2.1)) =
        ((l2.zip l1).all fun q => check_unify fuel q.1.2 q.2.2 ts && (q.1.1 == q.2.1)) := by
      intro l1
      induction l1 with
      | nil => intro l2; cases l2 <;> rfl
      | cons x xs ihx =>
        intro l2
        cases l2 with
        | nil => rfl
        | cons y ys =>
          simp only [List.zip_cons_cons, List.all_cons, ihx ys]
          rw [ih x.2 y.2, beq_symm x.1 y.1]
    simp only [check_unify]
    cases ha : refiy_type ts ty1 <;> cases hb : refiy_type ts ty2 <;>
      simp only [ha, hb] <;> try rfl
    case Scalar.Scalar sty1 sty2 =>
      obtain ⟨hd1, k1⟩ := sty1
      obtain ⟨hd2, k2⟩ := sty2
      cases k1 <;> cases k2 <;>
        simp only [beq_symm hd1.bitsize hd2.bitsize,
          beq_symm hd1.vectorsize hd2.vectorsize] <;>
        try rfl
      all_goals
        congr 1
        exact beq_symm _ _
    case FnType.FnType f1 f2 =>
      obtain ⟨r1, p1, t1, v1⟩ := f1
      obtain ⟨r2, p2, t2, v2⟩ := f2
      simp only [FnTy.tag, FnTy.variadic, FnTy.params, FnTy.ret]
      rw [beq_symm t1 t2, beq_symm v1 v2, beq_symm p1.length p2.length, hzip p1 p2, ih r1 r2]
    case Pointer.Pointer p1 p2 =>
      exact ih p1.inner p2.inner
    case Product.Product l1 l2 =>
      exact hzip l1 l2
    case Aggregate.Aggregate d1 d2 =>
      obtain ⟨an1, k1, f1⟩ := d1
      obtain ⟨an2, k2, f2⟩ := d2
      simp only [AggregateDefn.kind, AggregateDefn.annotations, AggregateDefn.fields]
      rw [beq_symm k1 k2, beq_symm an1 an2, hzipf f1 f2]
    case Array.Array a1 a2 =>
      obtain ⟨e1, l1⟩ := a1
      obtain ⟨e2, l2⟩ := a2
      simp only [ArrayTy.len]
      cases l1 <;> cases l2 <;> try rfl
      case Integer.Integer s1 n1 s2 n2 =>
        show (check_unify fuel (.Scalar s1) (.Scalar s2) ts && (n1 == n2)) =
          (check_unify fuel (.Scalar s2) (.Scalar s1) ts && (n2 == n1))
        rw [ih (.Scalar s1) (.Scalar s2), beq_symm n1 n2]
    case Named.Named n1 n2 =>
      exact beq_symm n1 n2

/-- Types whose unification with themselves is expected to succeed within the
given fuel bound: non-Empty scalars, Null, and pointers, functions, products
and aggregates built from such, plus arrays with an integer length of
non-Empty scalar type. Void is excluded (no check_unify arm covers the pair
Void, Void), as are Empty-kind scalars (no kind sub-arm), Named references and
transparent wrappers (whose behaviour depends on the global type table). -/
inductive ReflUp : Nat → Ty → Prop where
  | scalar (n : Nat) (sty : ScalarType) (hk : sty.kind ≠ .Empty) :
      ReflUp (n+1) (.Scalar sty)
  | null (n : Nat) : ReflUp (n+1) .Null
  | pointer (n : Nat) (a : Nat) (vr : Nat × Nat) (dc : Nat) (inner : Ty) :
      ReflUp n inner → ReflUp (n+1) (.Pointer (.mk a vr dc inner))
  | fn (n : Nat) (ret : Ty) (params : List Ty) (tag : Abi) (variadic : Bool) :
      (∀ t ∈ params, ReflUp n t) → ReflUp n ret →
      ReflUp (n+1) (.FnType (.mk ret params tag variadic))
  | product (n : Nat) (l : List Ty) :
      (∀ t ∈ l, ReflUp n t) → ReflUp (n+1) (.Product l)
  | aggregate (n : Nat) (an : List Nat) (k : Nat) (fields : List (String × Ty)) :
      (∀ q ∈ fields, ReflUp n q.2) → ReflUp (n+1) (.Aggregate (.mk an k fields))
  | array (n : Nat) (e : Ty) (sty : ScalarType) (v : Nat) (hk : sty.kind ≠ .Empty) :
      ReflUp (n+2) (.Array (.mk e (.Integer sty v)))

/-- Zipping a type list with itself and unifying pairwise succeeds when every
element self-unifies. -/
theorem zip_self_all_unify (fuel : Nat) (ts : TypeState) :
    ∀ (l : List Ty), (∀ t ∈ l, check_unify fuel t t ts = true) →
      ((l.zip l).all fun q => check_unify fuel q.1 q.2 ts) = true := by
  intro l
  induction l with
  | nil => intro _; rfl
  | cons x xs ihx =>
    intro hl
    simp only [List.zip_cons_cons, List.all_cons, Bool.and_eq_true]
    exact ⟨hl x (List.mem_cons_self x xs), ihx fun t ht => hl t (List.mem_cons_of_mem x ht)⟩

/-- Zipping an aggregate field list with itself succeeds when every field type
self-unifies. -/
theorem zip_self_all_fields (fuel : Nat) (ts : TypeState) :
    ∀ (l : List (String × Ty)), (∀ q ∈ l, check_unify fuel q.2 q.2 ts = true) →
      ((l.zip l).all fun q =>
        check_unify fuel q.1.2 q.2.2 ts && (q.1.1 == q.2.1)) = true := by
  intro l
  induction l with
  | nil => intro _; rfl
  | cons x xs ihx =>
    intro hl
    simp only [List.zip_cons_cons, List.all_cons, Bool.and_eq_true]
    refine ⟨⟨hl x (List.mem_cons_self x xs), ?_⟩,
      ihx fun q hq => hl q (List.mem_cons_of_mem x hq)⟩
    exact beq_self_eq_true x.1

/-- check_unify is reflexive on the ReflUp grammar. -/
theorem check_unify_refl (fuel : Nat) (t : Ty) (ts : TypeState) (h : ReflUp fuel t) :
    check_unify fuel t t ts = true := by
  induction h with
  | scalar n sty hk =>
    obtain ⟨hd, k⟩ := sty
    cases k <;> first
      | exact absurd rfl hk
      | simp [check_unify, refiy_type]
  | null n => simp [check_unify, refiy_type]
  | pointer n a vr dc inner hin ihin =>
    simp [check_unify, refiy_type, PointerTy.inner, ihin]
  | fn n ret params tag variadic hp hr ihp ihr =>
    simp only [check_unify, refiy_type, FnTy.tag, FnTy.variadic, FnTy.params, FnTy.ret]
    simp only [beq_self_eq_true, Bool.true_and, Bool.and_eq_true]
    exact ⟨zip_self_all_unify n ts params ihp, ihr⟩
  | product n l hl ihl =>
    simp only [check_unify, refiy_type]
    exact zip_self_all_unify n ts l ihl
  | aggregate n an k fields hf ihf =>
    simp only [check_unify, refiy_type, AggregateDefn.kind, AggregateDefn.annotations,
      AggregateDefn.fields]
    simp only [beq_self_eq_true, Bool.true_and]
    exact zip_self_all_fields n ts fields ihf
  | array n e sty v hk =>
    show (check_unify (n+1) (.Scalar sty) (.Scalar sty) ts && (v == v)) = true
    simp only [beq_self_eq_true, Bool.and_true]
    obtain ⟨hd, k⟩ := sty
    cases k <;> first
      | exact absurd rfl hk
      | simp [check_unify, refiy_type]

/-- C4 counterexample: unification of Void with itself fails (no match arm of
check_unify covers the pair), so check_unify is not reflexive on all types as
the claim states. -/
theorem unify_refl_fails_on_void : check_unify 5 .Void .Void ts_empty = false := rfl

/-- C4 (amended): check_unify is fully symmetric, and it is reflexive on every
type of the ReflUp grammar (scalars with a non-Empty kind, Null, and pointer,
function, product, aggregate and integer-length array types built over them),
but not on all types: Void, Empty-kind scalars, and arrays with non-integer
lengths fail against themselves. -/
theorem unify_symmetric_and_refl_on_safe :
    (∀ (fuel : Nat) (ty1 ty2 : Ty) (ts : TypeState),
      check_unify fuel ty1 ty2 ts = check_unify fuel ty2 ty1 ts) ∧
    (∀ (fuel : Nat) (t : Ty) (ts : TypeState), ReflUp fuel t →
      check_unify fuel t t ts = true) :=
  ⟨check_unify_comm, check_unify_refl⟩

/-- Witness for the amended C4 theorem: symmetry and reflexivity evaluated on
a pointer-to-i32 type with fuel 2. -/
theorem unify_symmetric_and_refl_on_safe_witness :
    check_unify 2 (.Pointer (.mk 0 (0, 0) 0 ty_i32)) ty_i32 ts_empty =
      check_unify 2 ty_i32 (.Pointer (.mk 0 (0, 0) 0 ty_i32)) ts_empty ∧
    check_unify 2 (.Pointer (.mk 0 (0, 0) 0 ty_i32)) (.Pointer (.mk 0 (0, 0) 0 ty_i32))
      ts_empty = true :=
  ⟨unify_symmetric_and_refl_on_safe.1 2 (.Pointer (.mk 0 (0, 0) 0 ty_i32)) ty_i32 ts_empty,
   unify_symmetric_and_refl_on_safe.2 2 (.Pointer (.mk 0 (0, 0) 0 ty_i32)) ts_empty
     (ReflUp.pointer 1 0 (0, 0) 0 ty_i32 (ReflUp.scalar 0 (scalar_int 32 true)
       (by intro hK; exact absurd hK (by simp [scalar_int]))))⟩

end Xir

namespace Xir

/-- Every successful tycheck_expr returns a false diverged flag: the Rust
function returns the literal false on every path. -/
theorem tycheck_expr_ok_false (fuel : Nat) (e : Expr) (locals : List Ty)
    (targets : List (Nat × List StackItem)) (tys : TypeState) (st out : SimSt) (d : Bool)
    (h : tycheck_expr fuel e locals targets tys st = .ok (out, d)) : d = false := by
  cases fuel with
  | zero => exact Except.noConfusion h
  | succ fuel =>
    cases e
    all_goals
      simp only [tycheck_expr, Bind.bind, Except.bind, ensure, popE] at h
    all_goals
      repeat' split at h
    all_goals
      first
      | exact Except.noConfusion h
      | (injection h with h1; injection h1 with h2 h3; exact h3.symm)

/-- The item loop keeps the diverged flag false: it starts false, a Target
resets it, and every successful expression returns false. -/
theorem tycheck_items_diverged_false (fuel : Nat) (items : List BlockItem)
    (locals : List Ty) (targets : List (Nat × List StackItem)) (tys : TypeState)
    (lst out : LoopSt)
    (h : tycheck_items fuel items locals targets tys lst = .ok out)
    (hd : lst.diverged = false) : out.diverged = false := by
  induction items generalizing fuel lst with
  | nil =>
    cases fuel <;>
      (simp only [tycheck_items, Except.ok.injEq] at h; rw [← h]; exact hd)
  | cons item rest ih =>
    cases fuel with
    | zero => exact Except.noConfusion h
    | succ n =>
      cases item with
      | Expr e =>
        simp only [tycheck_items, Bind.bind, Except.bind] at h
        cases hrec : tycheck_expr n e locals targets tys ⟨lst.block_exits, lst.vstack⟩ with
        | error err => rw [hrec] at h; exact Except.noConfusion h
        | ok p =>
          obtain ⟨st1, d1⟩ := p
          rw [hrec] at h
          exact ih n ⟨st1.block_exits, st1.vstack, d1⟩ h
            (tycheck_expr_ok_false n e locals targets tys ⟨lst.block_exits, lst.vstack⟩
              st1 d1 hrec)
      | Target num tstack =>
        simp only [tycheck_items] at h
        by_cases hdiv : lst.diverged = true
        · rw [if_pos hdiv] at h
          exact ih n _ h rfl
        · rw [if_neg hdiv] at h
          by_cases hu : check_unify_stack n lst.vstack tstack tys = true
          · rw [if_pos hu] at h
            exact ih n _ h rfl
          · rw [Bool.not_eq_true] at hu
            rw [hu] at h
            exact Except.noConfusion h

/-- C10: the diverged flag returned by tycheck_expr is false for every
successfully checked expression, and consequently no Target join point in a
successfully validated block is ever skipped as unreachable: for every Target
item at any position of the block, the live stack reaching it was required to
unify against the label's declared shape. -/
theorem no_join_point_skipped :
    (∀ (fuel : Nat) (e : Expr) (locals : List Ty) (targets : List (Nat × List StackItem))
       (tys : TypeState) (st out : SimSt) (d : Bool),
      tycheck_expr fuel e locals targets tys st = .ok (out, d) → d = false) ∧
    (∀ (fuel : Nat) (block : Block) (tys : TypeState) (locals : List Ty)
       (exits : List (Option (List StackItem)))
       (res : List (Option (List StackItem)) × List StackItem)
       (pre rest : List BlockItem) (num : Nat) (tstack : List StackItem),
      block.items = pre ++ .Target num tstack :: rest →
      tycheck_block (fuel+1) block tys locals exits = .ok res →
      ∃ targets mid,
        prescan_targets block.items [] = .ok targets ∧
        tycheck_items fuel pre locals targets tys
          ⟨exits ++ [none], [], false⟩ = .ok mid ∧
        mid.diverged = false ∧
        check_unify_stack (fuel - pre.length - 1) mid.vstack tstack tys = true) := by
  constructor
  · exact tycheck_expr_ok_false
  · intro fuel block tys locals exits res pre rest num tstack hitems h
    simp only [tycheck_block, Bind.bind, Except.bind] at h
    split at h
    · exact Except.noConfusion h
    · rename_i targets hpre
      split at h
      · exact Except.noConfusion h
      · rename_i fin hrun
        rw [hitems] at hrun
        obtain ⟨mid, hmid, hchk, _⟩ :=
          target_join_point fuel pre rest num tstack locals targets tys
            ⟨exits ++ [none], [], false⟩ fin hrun
        refine ⟨targets, mid, hpre, hmid, ?_, ?_⟩
        · exact tycheck_items_diverged_false fuel pre locals targets tys _ mid hmid rfl
        · exact hchk (tycheck_items_diverged_false fuel pre locals targets tys _ mid hmid rfl)

/-- Witness for the no-skipped-join-point theorem: a block consisting of a
single Target with an empty declared shape validates, and the join-point
check at that Target runs. -/
theorem no_join_point_skipped_witness :
    (tycheck_expr 1 .Null [] [] ts_empty ⟨[], []⟩ = .ok (⟨[], []⟩, false) →
      false = false) ∧
    ∃ targets mid,
      prescan_targets (Block.mk [.Target 0 []]).items [] = .ok targets ∧
      tycheck_items 1 [] [] targets ts_empty ⟨[] ++ [none], [], false⟩ = .ok mid ∧
      mid.diverged = false ∧
      check_unify_stack (1 - List.length ([] : List BlockItem) - 1) mid.vstack [] ts_empty
        = true :=
  ⟨fun h => no_join_point_skipped.1 1 .Null [] [] ts_empty ⟨[], []⟩ ⟨[], []⟩ false h,
   no_join_point_skipped.2 1 (Block.mk [.Target 0 []]) ts_empty [] []
     ([], []) [] [] 0 [] rfl rfl⟩

end Xir

namespace Xir

/-- C5: for a function declaration with a body, a successful tycheck_function
ran tycheck_block on the body's root block over params ++ locals, and the
returned exit stack has exactly 0 items when the declared return type is Void
and otherwise exactly 1 item whose type unifies with the declared return
type; and if after the item loop the root block's exit slot was never
established (no ExitBlock targeting it fired), the block returns the empty
exit stack. -/
theorem function_return_shape :
    (∀ (fuel : Nat) (x : FunctionDeclaration) (tys : TypeState) (body : FnBody),
      x.body = some body →
      tycheck_function fuel x tys = .ok () →
      ∃ exits1 ret,
        tycheck_block fuel body.block tys (x.ty.params ++ body.locals) [] = .ok (exits1, ret) ∧
        (x.ty.ret = .Void → ret.length = 0) ∧
        (x.ty.ret ≠ .Void → ∃ r0, ret = [r0] ∧ check_unify fuel r0.ty x.ty.ret tys = true)) ∧
    (∀ (fuel : Nat) (block : Block) (tys : TypeState) (locals : List Ty)
       (exits : List (Option (List StackItem))) (targets : List (Nat × List StackItem))
       (fin : LoopSt),
      prescan_targets block.items [] = .ok targets →
      tycheck_items fuel block.items locals targets tys
        ⟨exits ++ [none], [], false⟩ = .ok fin →
      fin.block_exits.getLast? = some none →
      tycheck_block (fuel+1) block tys locals exits = .ok (fin.block_exits.dropLast, [])) := by
  constructor
  · intro fuel x tys body hbody h
    unfold tycheck_function at h
    rw [hbody] at h
    simp only [Bind.bind, Except.bind] at h
    split at h
    · exact Except.noConfusion h
    · rename_i p hblk
      obtain ⟨exits1, ret⟩ := p
      refine ⟨exits1, ret, hblk, ?_⟩
      split at h
      · rename_i hvoid
        simp only [ensure] at h
        split at h
        · rename_i hlen
          refine ⟨fun _ => by simpa using hlen, fun hne => absurd hvoid hne⟩
        · exact Except.noConfusion h
      · rename_i hnv
        split at h
        · rename_i r0 hret
          simp only [ensure] at h
          split at h
          · rename_i huni
            refine ⟨fun hv => absurd hv (fun hv' => hnv hv'), fun _ => ⟨r0, ?_, huni⟩⟩
            simpa using hret
          · exact Except.noConfusion h
        · exact Except.noConfusion h
  · intro fuel block tys locals exits targets fin hpre hrun hlast
    simp only [tycheck_block, Bind.bind, Except.bind, hpre, hrun, hlast]
    rfl


/-- Trivial function declaration with a Void return type and an empty body. -/
def fdecl_void : FunctionDeclaration := ⟨.mk .Void [] .C false, some ⟨[], .mk []⟩⟩

/-- Witness for the function-return-shape theorem: the trivial Void function
with an empty body validates and its root block returns the empty exit
stack. -/
theorem function_return_shape_witness :
    (∃ exits1 ret,
      tycheck_block 1 (FnBody.mk [] (Block.mk [])).block ts_empty
        (fdecl_void.ty.params ++ (FnBody.mk [] (Block.mk [])).locals) []
        = .ok (exits1, ret) ∧
      (fdecl_void.ty.ret = .Void → ret.length = 0) ∧
      (fdecl_void.ty.ret ≠ .Void →
        ∃ r0, ret = [r0] ∧ check_unify 1 r0.ty fdecl_void.ty.ret ts_empty = true)) ∧
    tycheck_block (0+1) (Block.mk []) ts_empty [] [] =
      .ok ((⟨[none], [], false⟩ : LoopSt).block_exits.dropLast, []) :=
  ⟨function_return_shape.1 1 fdecl_void ts_empty (FnBody.mk [] (Block.mk [])) rfl rfl,
   function_return_shape.2 0 (Block.mk []) ts_empty [] [] [] ⟨[none], [], false⟩ rfl rfl rfl⟩

/-- Success condition for one scope member in pass two: function members must
pass tycheck_function (declarations without a body pass trivially), Static
members always fail (the todo! stub), everything else is skipped. -/
def member_ok (fuel : Nat) (ts : TypeState) (sm : ScopeMember) : Prop :=
  match sm.member_decl with
  | .Function decl => tycheck_function fuel decl ts = .ok ()
  | .Static _ => False
  | _ => True

theorem pass2_ok_iff (fuel : Nat) (ts : TypeState) (l : List (Path × ScopeMember)) :
    pass2 fuel ts l = .ok () ↔ ∀ q ∈ l, member_ok fuel ts q.2 := by
  induction l with
  | nil => simp [pass2]
  | cons hd tl ih =>
    obtain ⟨p, sm⟩ := hd
    cases hdecl : sm.member_decl with
    | Function decl =>
      cases hbody : decl.body with
      | none =>
        simp only [pass2, hdecl, hbody, ih]
        constructor
        · intro hall q hq
          rcases List.mem_cons.mp hq with hq1 | hq2
          · rw [hq1]
            simp only [member_ok, hdecl, tycheck_function, hbody]
          · exact hall q hq2
        · intro hall q hq
          exact hall q (List.mem_cons_of_mem _ hq)
      | some body =>
        simp only [pass2, hdecl, hbody, Bind.bind, Except.bind]
        constructor
        · intro h q hq
          rcases List.mem_cons.mp hq with hq1 | hq2
          · rw [hq1]
            simp only [member_ok, hdecl]
            cases hfn : tycheck_function fuel decl ts with
            | error err => rw [hfn] at h; exact Except.noConfusion h
            | ok u => cases u; rfl
          · cases hfn : tycheck_function fuel decl ts with
            | error err => rw [hfn] at h; exact Except.noConfusion h
            | ok u =>
              rw [hfn] at h
              cases u
              exact (ih.mp h) q hq2
        · intro hall
          have h1 : tycheck_function fuel decl ts = .ok () := by
            have := hall (p, sm) (List.mem_cons_self _ _)
            simpa [member_ok, hdecl] using this
          rw [h1]
          exact ih.mpr fun q hq => hall q (List.mem_cons_of_mem _ hq)
    | Static defn =>
      simp only [pass2, hdecl]
      constructor
      · intro h; exact absurd h (by simp)
      · intro hall
        have := hall (p, sm) (List.mem_cons_self _ _)
        simp [member_ok, hdecl] at this
    | AggregateDefinition defn =>
      simp only [pass2, hdecl, ih]
      constructor
      · intro hall q hq
        rcases List.mem_cons.mp hq with hq1 | hq2
        · rw [hq1]; simp [member_ok, hdecl]
        · exact hall q hq2
      · intro hall q hq
        exact hall q (List.mem_cons_of_mem _ hq)
    | OpaqueAggregate k =>
      simp only [pass2, hdecl, ih]
      constructor
      · intro hall q hq
        rcases List.mem_cons.mp hq with hq1 | hq2
        · rw [hq1]; simp [member_ok, hdecl]
        · exact hall q hq2
      · intro hall q hq
        exact hall q (List.mem_cons_of_mem _ hq)
    | Empty =>
      simp only [pass2, hdecl, ih]
      constructor
      · intro hall q hq
        rcases List.mem_cons.mp hq with hq1 | hq2
        · rw [hq1]; simp [member_ok, hdecl]
        · exact hall q hq2
      · intro hall q hq
        exact hall q (List.mem_cons_of_mem _ hq)


/-- Root path used by the concrete file fixtures. -/
def path0 : Path := ⟨[]⟩

/-- File whose only member is a Static definition. -/
def file_with_static : File :=
  ⟨0, ⟨[(path0, ⟨0, .Static ⟨ty_i32, .Invalid ty_i32⟩⟩)]⟩⟩

/-- File whose only member is a bodyless function declaration. -/
def file_fn_only : File :=
  ⟨0, ⟨[(path0, ⟨0, .Function ⟨.mk .Void [] .C false, none⟩⟩)]⟩⟩

/-- C7 counterexample: a File containing a Static member definition makes
tycheck abort in pass two (the Static arm is a todo! panic), even though all
its function members (there are none) validate. -/
theorem tycheck_fails_on_static_member :
    tycheck 1 file_with_static = .error .unsupported := rfl

/-- C7 (amended): tycheck succeeds exactly when every member passes pass two,
which requires that no member is a Static definition (any Static member hits
the todo! stub and aborts); static bodies are never type-checked, and files
whose function members all validate succeed provided they contain no Static
member. -/
theorem static_members_abort_pass2 (fuel : Nat) (x : File) :
    tycheck fuel x = .ok () ↔
      ∀ q ∈ x.root.members, member_ok fuel (pass1 x.root.members ⟨[], []⟩) q.2 :=
  pass2_ok_iff fuel (pass1 x.root.members ⟨[], []⟩) x.root.members

/-- Witness for the amended C7 theorem: a file with a single bodyless
function member passes tycheck. -/
theorem static_members_abort_pass2_witness : tycheck 1 file_fn_only = .ok () :=
  (static_members_abort_pass2 1 file_fn_only).mpr
    (fun q hq => by rw [List.mem_singleton.mp hq]; rfl)

end Xir
